import Mathlib

/-!
Shallow embedding of `mrjob/tools/emr/s3_tmpwatch.py`.

Strings are modelled as `List Char`.  A Python `timedelta` is modelled by its
total number of seconds as an `Int` (Python normalises `timedelta` fields but
compares and stores the exact total, so equality / order of `timedelta`s is
equality / order of total seconds), together with the constructor's
`OverflowError`: construction fails when the normalised (floored) day count
falls outside ±999999999.

Python exceptions that matter to the tool are collected in one error type
`Err`:
  * `valueError`   — Python `ValueError`, raised by `int()` on a malformed
                     literal (the spec calls this `InvalidDurationFormat`);
  * `indexError`   — Python `IndexError`, raised by `time[-1]` on `""`;
  * `overflowError` — Python `OverflowError`, raised by the `timedelta`
                     constructor when the day count is out of range;
  * `usageError`   — `optparse`'s `option_parser.error(...)`, which prints a
                     usage message and exits with a non-zero status;
  * `attributeError` — Python `AttributeError`, raised when a missing
                     attribute of the parsed-options object is read;
  * `backend n`    — an arbitrary storage/backend error (boto, network, ...).
-/

inductive Err where
  | valueError
  | indexError
  | overflowError
  | usageError
  | attributeError
  | backend (n : Nat)
deriving DecidableEq, Repr

/-- The tail of a decimal literal after its first digit: further digits,
with a single underscore allowed only between two digits (`int()` accepts
"4_5" but rejects "4_", "_45" and "4__5"). -/
def pyDigitsRest : List Char → Bool
  | [] => true
  | c :: rest =>
    if c = '_' then
      match rest with
      | [] => false
      | c2 :: rest2 => c2.isDigit && pyDigitsRest rest2
    else c.isDigit && pyDigitsRest rest

/-- A decimal digit sequence as `int()` accepts it: one or more digits with
single underscores only between digits. -/
def pyDigits : List Char → Bool
  | [] => false
  | c :: rest => c.isDigit && pyDigitsRest rest

/-- The numeric value of an accepted digit sequence (underscores skipped);
`none` where `int()` raises `ValueError`.  CPython first maps Unicode
decimal digits to their ASCII counterparts and Unicode spaces to ASCII
space, so the model's input alphabet is that normalised ASCII form. -/
def pyIntCore (cs : List Char) : Option Nat :=
  if pyDigits cs then
    some ((cs.filter (fun c => c != '_')).foldl
      (fun a c => 10 * a + (c.toNat - '0'.toNat)) 0)
  else
    none

/-- The leading/trailing whitespace stripping `int()` applies before
parsing. -/
def pyStrip (cs : List Char) : List Char :=
  (cs.dropWhile Char.isWhitespace).rdropWhile Char.isWhitespace

/-- A stripped integer literal: an optional single sign `+`/`-` followed by
a digit sequence. -/
def pyIntSigned : List Char → Option Int
  | [] => none
  | c :: rest =>
    if c = '-' then
      match pyIntCore rest with
      | some m => some (-(m : Int))
      | none => none
    else if c = '+' then
      match pyIntCore rest with
      | some m => some ((m : Int))
      | none => none
    else
      match pyIntCore (c :: rest) with
      | some m => some ((m : Int))
      | none => none

/-- Python `int(s)`: strip surrounding whitespace, then parse an optionally
signed digit sequence. -/
def pyInt (cs : List Char) : Option Int :=
  pyIntSigned (pyStrip cs)

/-- The `timedelta` day-count bound on a total-seconds value: Python
normalises to `(days, seconds, microseconds)` with `0 ≤ seconds < 86400`
(floor division, like Python `//`) and requires `|days| ≤ 999999999`. -/
def timedelta_ok (s : Int) : Bool :=
  -999999999 ≤ s.fdiv 86400 && s.fdiv 86400 ≤ 999999999

/-- Constructing a `timedelta` from a total number of seconds: the value,
or `OverflowError` when the day count is out of range. -/
def timedelta_make (s : Int) : Except Err Int :=
  if timedelta_ok s then .ok s else .error .overflowError

/-- `timedelta(minutes=n)`. -/
def td_minutes (n : Int) : Except Err Int := timedelta_make (n * 60)

/-- `timedelta(hours=n)`. -/
def td_hours (n : Int) : Except Err Int := timedelta_make (n * 3600)

/-- `timedelta(days=n)`. -/
def td_days (n : Int) : Except Err Int := timedelta_make (n * 86400)

/-- Embedding of `process_time(time)` (s3_tmpwatch.py, lines 119-127).

Python's `time[-1]` raises `IndexError` on the empty string, which the
`getLast?` `none` case models; `time[:-1]` is `dropLast`. -/
def process_time (time : List Char) : Except Err Int :=
  match time.getLast? with
  | none => .error .indexError
  | some c =>
    if c = 'm' then
      match pyInt time.dropLast with
      | some n => td_minutes n
      | none => .error .valueError
    else if c = 'h' then
      match pyInt time.dropLast with
      | some n => td_hours n
      | none => .error .valueError
    else if c = 'd' then
      match pyInt time.dropLast with
      | some n => td_days n
      | none => .error .valueError
    else
      match pyInt time with
      | some n => td_hours n
      | none => .error .valueError

/-- An S3 key object as seen by the cleanup loop: its name (`key.name`) and
its raw last-modified ISO8601 string (`key.last_modified`). -/
structure S3Object where
  name : List Char
  last_modified : List Char
deriving DecidableEq, Repr

/-- Observable effects of a run: the two `log.info` lines of `s3_cleanup` and
an invocation of `key.delete()`. -/
inductive Event where
  | logStart (glob : List Char) (time_old : Int)
  | logKey (name : List Char) (age : Int)
  | delete (name : List Char)
deriving DecidableEq, Repr

/-- The collaborators of `s3_cleanup` that live outside `src/` (the
`EMRJobRunner` filesystem, boto buckets/keys, `iso8601_to_datetime`,
`parse_s3_uri`, and the wall clock), abstracted as an environment:
  * `ls p`            — `runner.fs.ls(p)`: the URIs under glob `p`, or a
                        backend error;
  * `parse_s3_uri u`  — `(bucket_name, key_name)` of URI `u` (pure);
  * `list_keys b k`   — `bucket.list(key_name)` on bucket `b`: the key
                        objects, or a backend listing error;
  * `parse_iso s`     — `iso8601_to_datetime(s)` as a UTC timestamp in
                        seconds, or a parse error;
  * `delete_result o` — the outcome of invoking `o.delete()`;
  * `clock i`         — the value of the `i`-th call to `datetime.utcnow()`
                        during the run, as a UTC timestamp in seconds. -/
structure Env where
  ls : List Char → Except Err (List (List Char))
  parse_s3_uri : List Char → List Char × List Char
  list_keys : List Char → List Char → Except Err (List S3Object)
  parse_iso : List Char → Except Err Int
  delete_result : S3Object → Except Err Unit
  clock : Nat → Int

/-- Turn the result of a fallible collaborator call into `some` error or
`none` for success. -/
def errOf (r : Except Err Unit) : Option Err :=
  match r with
  | .ok _ => none
  | .error e => some e

/-- The body of the inner `for key in bucket.list(key_name)` loop of
`s3_cleanup` (lines 99-107) for one key object, threading the index `tick` of
the next `utcnow()` sample.  Returns the events it emits, the next sample
index, and `some e` if an exception `e` propagates out of the body:
  * `iso8601_to_datetime(key.last_modified)` may raise;
  * `age = datetime.utcnow() - last_modified` consumes one clock sample;
  * if `age > time_old` the log line is emitted and, unless `dry_run`,
    `key.delete()` is invoked (the `Event.delete` marks the invocation; its
    outcome may itself raise). -/
def process_key (env : Env) (dry_run : Bool) (time_old : Int) (tick : Nat)
    (k : S3Object) : List Event × Nat × Option Err :=
  match env.parse_iso k.last_modified with
  | .error e => ([], tick, some e)
  | .ok lm =>
    if time_old < env.clock tick - lm then
      if dry_run then
        ([Event.logKey k.name (env.clock tick - lm)], tick + 1, none)
      else
        ([Event.logKey k.name (env.clock tick - lm), Event.delete k.name],
          tick + 1, errOf (env.delete_result k))
    else
      ([], tick + 1, none)

/-- The inner `for key in bucket.list(key_name)` loop: process each key in
order, stopping at the first propagated exception. -/
def keys_loop (env : Env) (dry_run : Bool) (time_old : Int) (tick : Nat) :
    List S3Object → List Event × Nat × Option Err
  | [] => ([], tick, none)
  | k :: ks =>
    match process_key env dry_run time_old tick k with
    | (evs, tick1, some e) => (evs, tick1, some e)
    | (evs, tick1, none) =>
      match keys_loop env dry_run time_old tick1 ks with
      | (evs2, tick2, r) => (evs ++ evs2, tick2, r)

/-- The outer `for path in runner.fs.ls(glob_path)` loop body and recursion
(lines 96-107): split the URI, list the bucket, run the inner loop; stop at
the first propagated exception. -/
def paths_loop (env : Env) (dry_run : Bool) (time_old : Int) (tick : Nat) :
    List (List Char) → List Event × Nat × Option Err
  | [] => ([], tick, none)
  | p :: ps =>
    match env.list_keys (env.parse_s3_uri p).1 (env.parse_s3_uri p).2 with
    | .error e => ([], tick, some e)
    | .ok keys =>
      match keys_loop env dry_run time_old tick keys with
      | (evs, tick1, some e) => (evs, tick1, some e)
      | (evs, tick1, none) =>
        match paths_loop env dry_run time_old tick1 ps with
        | (evs2, tick2, r) => (evs ++ evs2, tick2, r)

/-- Embedding of `s3_cleanup(glob_path, time_old, dry_run, ...)` (lines
85-107).  The initial `log.info('Deleting all files in %s that are older than
%s')` precedes the `runner.fs.ls` call, so it is emitted even when the
listing fails. -/
def s3_cleanup (env : Env) (glob_path : List Char) (time_old : Int)
    (dry_run : Bool) (tick : Nat) : List Event × Nat × Option Err :=
  match env.ls glob_path with
  | .error e => ([Event.logStart glob_path time_old], tick, some e)
  | .ok paths =>
    match paths_loop env dry_run time_old tick paths with
    | (evs, tick1, r) => (Event.logStart glob_path time_old :: evs, tick1, r)

/-- The boolean-valued attributes the `optparse` options object carries after
`make_option_parser` (dests `test`, `quiet`, `verbose`; the remaining dests
`conf_paths`, `no_conf`, `aws_region`, `s3_endpoint` are not booleans and are
never read by the embedded code paths). -/
structure Options where
  test : Bool
  quiet : Bool
  verbose : Bool
deriving DecidableEq, Repr

/-- Python attribute lookup on the options object, for the boolean
attributes: `some` the stored value for an existing dest, `none` (an
`AttributeError`) for any other name.  There is no dest `text`. -/
def Options.getattr (o : Options) (attrName : List Char) : Option Bool :=
  if attrName = ['t', 'e', 's', 't'] then some o.test
  else if attrName = ['q', 'u', 'i', 'e', 't'] then some o.quiet
  else if attrName = ['v', 'e', 'r', 'b', 'o', 's', 'e'] then some o.verbose
  else none

/-- The `for path in args[1:]` loop of `main` (lines 79-82).  Each iteration
first evaluates the call arguments of `s3_cleanup`, in particular
`dry_run=options.text` — an attribute read that raises `AttributeError`
because the option's dest is `test`, not `text` — and only then would call
`s3_cleanup`. -/
def main_loop (env : Env) (opts : Options) (time_old : Int) (tick : Nat) :
    List (List Char) → List Event × Nat × Option Err
  | [] => ([], tick, none)
  | p :: ps =>
    match opts.getattr ['t', 'e', 'x', 't'] with
    | none => ([], tick, some Err.attributeError)
    | some dry =>
      match s3_cleanup env p time_old dry tick with
      | (evs, tick1, some e) => (evs, tick1, some e)
      | (evs, tick1, none) =>
        match main_loop env opts time_old tick1 ps with
        | (evs2, tick2, r) => (evs ++ evs2, tick2, r)

/-- Spec-side description of the handling of one enumerated object, given the
index `i` of the `utcnow()` sample dedicated to it (follows the spec's words:
`now_UTC` is sampled once per object comparison, and the object's age is that
per-object sample minus its parsed last-modified instant). -/
def key_events (env : Env) (dry_run : Bool) (time_old : Int) (i : Nat)
    (k : S3Object) : List Event :=
  match env.parse_iso k.last_modified with
  | .error _ => []
  | .ok lm =>
    if time_old < env.clock i - lm then
      Event.logKey k.name (env.clock i - lm) ::
        (if dry_run then [] else [Event.delete k.name])
    else []

namespace S3TmpWatch

/-- Embedding of `main(cl_args)` (lines 68-82) after option parsing: `opts`
and `args` are the `options, args` returned by `option_parser.parse_args`.
The guard `if not args or len(args) < 2` calls `option_parser.error`, which
prints usage and exits non-zero (`Err.usageError`), before `process_time` is
applied and before any storage interaction. -/
def main (env : Env) (opts : Options) (args : List (List Char)) :
    List Event × Option Err :=
  if args.length < 2 then ([], some Err.usageError)
  else
    match args with
    | [] => ([], some Err.usageError)
    | t :: paths =>
      match process_time t with
      | .error e => ([], some e)
      | .ok time_old =>
        match main_loop env opts time_old 0 paths with
        | (evs, _, r) => (evs, r)

end S3TmpWatch

/-- A benign concrete environment: empty listings, every collaborator
succeeds. -/
def envTriv : Env where
  ls := fun _ => .ok []
  parse_s3_uri := fun _ => ([], [])
  list_keys := fun _ _ => .ok []
  parse_iso := fun _ => .ok 0
  delete_result := fun _ => .ok ()
  clock := fun _ => 0

/-- A concrete environment whose `runner.fs.ls` raises a backend error. -/
def envLsErr : Env :=
  { envTriv with ls := fun _ => .error (Err.backend 7) }

/-- A concrete environment whose `bucket.list` raises a backend error. -/
def envListErr : Env :=
  { envTriv with
    ls := fun _ => .ok [['u']]
    list_keys := fun _ _ => .error (Err.backend 8) }

/-- A concrete environment whose `iso8601_to_datetime` raises. -/
def envParseErr : Env :=
  { envTriv with parse_iso := fun _ => .error (Err.backend 9) }

/-- A concrete environment where every object is 100 seconds old and
`key.delete()` raises a backend error. -/
def envDelErr : Env :=
  { envTriv with
    clock := fun _ => 100
    delete_result := fun _ => .error (Err.backend 10) }

/-- A concrete environment where every object is 100 seconds old and all
collaborators succeed. -/
def envOld : Env :=
  { envTriv with clock := fun _ => 100 }

/-- A concrete key object for witnesses. -/
def kw : S3Object := ⟨['k'], ['t']⟩

/-- A concrete environment whose clock advances one second per `utcnow()`
call, all collaborators succeeding. -/
def envInc : Env :=
  { envTriv with clock := fun i => 100 + i }

/-- A second concrete key object for witnesses. -/
def kw2 : S3Object := ⟨['k', '2'], ['t']⟩

theorem getLast?_cons_of_ne {α : Type} (a : α) {l : List α} (h : l ≠ []) :
    (a :: l).getLast? = l.getLast? := by
  cases l with
  | nil => exact absurd rfl h
  | cons b t => exact List.getLast?_cons_cons

theorem pyDigitsRest_getLast :
    ∀ (rest : List Char), pyDigitsRest rest = true →
      rest = [] ∨ ∃ d, rest.getLast? = some d ∧ d.isDigit = true := by
  intro rest
  induction rest using pyDigitsRest.induct with
  | case1 => intro _; exact Or.inl rfl
  | case2 => intro h; exact absurd h (by decide)
  | case3 c2 rest2 ih =>
    intro h
    unfold pyDigitsRest at h
    simp at h
    rcases ih h.2 with rfl | ⟨d, hd, hdig⟩
    · exact Or.inr ⟨c2, by simp, h.1⟩
    · have hne : rest2 ≠ [] := by
        intro he
        rw [he] at hd
        cases hd
      refine Or.inr ⟨d, ?_, hdig⟩
      rw [List.getLast?_cons_cons, getLast?_cons_of_ne c2 hne]
      exact hd
  | case4 c rest hc ih =>
    intro h
    unfold pyDigitsRest at h
    rw [if_neg hc] at h
    simp at h
    rcases ih h.2 with rfl | ⟨d, hd, hdig⟩
    · exact Or.inr ⟨c, by simp, h.1⟩
    · have hne : rest ≠ [] := by
        intro he
        rw [he] at hd
        cases hd
      exact Or.inr ⟨d, by rw [getLast?_cons_of_ne c hne]; exact hd, hdig⟩

theorem pyDigits_getLast {ds : List Char} (h : pyDigits ds = true) :
    ∃ d, ds.getLast? = some d ∧ d.isDigit = true := by
  cases ds with
  | nil => exact absurd h (by decide)
  | cons c rest =>
    simp only [pyDigits, Bool.and_eq_true] at h
    rcases pyDigitsRest_getLast rest h.2 with rfl | ⟨d, hd, hdig⟩
    · exact ⟨c, rfl, h.1⟩
    · have hne : rest ≠ [] := by
        intro he
        rw [he] at hd
        cases hd
      exact ⟨d, by rw [getLast?_cons_of_ne c hne]; exact hd, hdig⟩

theorem pyDigits_ne_nil {ds : List Char} (h : pyDigits ds = true) :
    ds ≠ [] := by
  intro he
  rw [he] at h
  exact absurd h (by decide)

theorem pyIntCore_some {cs : List Char} {n : Nat} (h : pyIntCore cs = some n) :
    pyDigits cs = true := by
  unfold pyIntCore at h
  split at h
  · assumption
  · exact absurd h (by simp)

theorem pyIntSigned_getLast {cs : List Char} {n : Int}
    (h : pyIntSigned cs = some n) :
    ∃ d, cs.getLast? = some d ∧ d.isDigit = true := by
  cases cs with
  | nil => exact absurd h (by simp [pyIntSigned])
  | cons c rest =>
    simp only [pyIntSigned] at h
    split_ifs at h with h1 h2
    · cases hpc : pyIntCore rest with
      | none => rw [hpc] at h; exact absurd h (by simp)
      | some m =>
        obtain ⟨d, hd, hdig⟩ := pyDigits_getLast (pyIntCore_some hpc)
        exact ⟨d, by
          rw [getLast?_cons_of_ne c (pyDigits_ne_nil (pyIntCore_some hpc))]
          exact hd, hdig⟩
    · cases hpc : pyIntCore rest with
      | none => rw [hpc] at h; exact absurd h (by simp)
      | some m =>
        obtain ⟨d, hd, hdig⟩ := pyDigits_getLast (pyIntCore_some hpc)
        exact ⟨d, by
          rw [getLast?_cons_of_ne c (pyDigits_ne_nil (pyIntCore_some hpc))]
          exact hd, hdig⟩
    · cases hpc : pyIntCore (c :: rest) with
      | none => rw [hpc] at h; exact absurd h (by simp)
      | some m => exact pyDigits_getLast (pyIntCore_some hpc)

theorem pyIntSigned_nonneg {cs : List Char} {n : Int} (hm : '-' ∉ cs)
    (h : pyIntSigned cs = some n) : 0 ≤ n := by
  cases cs with
  | nil => exact absurd h (by simp [pyIntSigned])
  | cons c rest =>
    simp only [pyIntSigned] at h
    split_ifs at h with h1 h2
    · exact absurd (by rw [← h1]; exact List.mem_cons_self c rest) hm
    · cases hpc : pyIntCore rest with
      | none => rw [hpc] at h; exact absurd h (by simp)
      | some m => rw [hpc] at h; simp at h; omega
    · cases hpc : pyIntCore (c :: rest) with
      | none => rw [hpc] at h; exact absurd h (by simp)
      | some m => rw [hpc] at h; simp at h; omega

theorem pyStrip_subset {cs : List Char} : pyStrip cs ⊆ cs := by
  intro x hx
  exact (List.dropWhile_suffix Char.isWhitespace).subset
    ((List.rdropWhile_prefix Char.isWhitespace
      (cs.dropWhile Char.isWhitespace)).subset hx)

theorem pyStrip_getLast {cs : List Char} (hne : pyStrip cs ≠ []) :
    cs.getLast? = (pyStrip cs).getLast? ∨
      ∃ w, cs.getLast? = some w ∧ w.isWhitespace = true := by
  have hl1 : cs.dropWhile Char.isWhitespace ≠ [] := by
    intro he
    apply hne
    unfold pyStrip
    rw [he, List.rdropWhile_nil]
  have hcs : cs ≠ [] := by
    intro he
    exact hl1 (by rw [he]; rfl)
  have hlast_eq :
      cs.getLast? = (cs.dropWhile Char.isWhitespace).getLast? := by
    obtain ⟨t, ht⟩ := List.dropWhile_suffix (l := cs) Char.isWhitespace
    conv_lhs => rw [← ht]
    exact List.getLast?_append_of_ne_nil t hl1
  by_cases hw : Char.isWhitespace (cs.getLast hcs) = true
  · exact Or.inr ⟨cs.getLast hcs, List.getLast?_eq_getLast cs hcs, hw⟩
  · left
    have hgl :
        (cs.dropWhile Char.isWhitespace).getLast hl1 = cs.getLast hcs := by
      have e1 :=
        List.getLast?_eq_getLast (cs.dropWhile Char.isWhitespace) hl1
      have e2 := List.getLast?_eq_getLast cs hcs
      rw [e1, e2] at hlast_eq
      injection hlast_eq with hinj
      exact hinj.symm
    have hstr : pyStrip cs = cs.dropWhile Char.isWhitespace := by
      unfold pyStrip
      rw [List.rdropWhile_eq_self_iff]
      intro hl
      have hsame : (cs.dropWhile Char.isWhitespace).getLast hl =
          cs.getLast hcs := hgl
      rw [hsame]
      exact hw
    rw [hstr, hlast_eq]

theorem pyInt_some_getLast {cs : List Char} {n : Int} (h : pyInt cs = some n) :
    ∃ c, cs.getLast? = some c ∧
      (c.isDigit = true ∨ c.isWhitespace = true) := by
  unfold pyInt at h
  obtain ⟨d, hd, hdig⟩ := pyIntSigned_getLast h
  have hne : pyStrip cs ≠ [] := by
    intro he
    rw [he] at hd
    cases hd
  rcases pyStrip_getLast hne with heq | ⟨w, hw, hws⟩
  · exact ⟨d, by rw [heq]; exact hd, Or.inl hdig⟩
  · exact ⟨w, hw, Or.inr hws⟩

theorem pyInt_nonneg {cs : List Char} {n : Int} (hm : '-' ∉ cs)
    (h : pyInt cs = some n) : 0 ≤ n := by
  unfold pyInt at h
  exact pyIntSigned_nonneg (fun hx => hm (pyStrip_subset hx)) h

theorem digit_or_ws_ne_unit {c : Char}
    (h : c.isDigit = true ∨ c.isWhitespace = true) :
    c ≠ 'm' ∧ c ≠ 'h' ∧ c ≠ 'd' := by
  refine ⟨?_, ?_, ?_⟩ <;> rintro rfl <;> rcases h with h | h <;>
    exact absurd h (by decide)

theorem timedelta_make_pos {s : Int} (h : timedelta_ok s = true) :
    timedelta_make s = .ok s := by
  unfold timedelta_make
  rw [if_pos h]

theorem timedelta_make_neg {s : Int} (h : timedelta_ok s = false) :
    timedelta_make s = .error Err.overflowError := by
  unfold timedelta_make
  rw [if_neg (by simp [h])]

theorem process_time_eq_of_getLast {cs : List Char} {c : Char}
    (hlast : cs.getLast? = some c) :
    process_time cs =
      (if c = 'm' then
        match pyInt cs.dropLast with
        | some n => td_minutes n
        | none => Except.error Err.valueError
      else if c = 'h' then
        match pyInt cs.dropLast with
        | some n => td_hours n
        | none => Except.error Err.valueError
      else if c = 'd' then
        match pyInt cs.dropLast with
        | some n => td_days n
        | none => Except.error Err.valueError
      else
        match pyInt cs with
        | some n => td_hours n
        | none => Except.error Err.valueError) := by
  unfold process_time
  rw [hlast]

/-- Claim C10: the duration parser inspects the last character first and is
only safe on non-empty input: it fails with the out-of-range indexing error
exactly on the empty string (so for every non-empty string the last-character
access is in bounds and no `IndexError` arises). -/
theorem c10_index_error_iff_empty (cs : List Char) :
    process_time cs = .error Err.indexError ↔ cs = [] := by
  constructor
  · intro h
    cases hlast : cs.getLast? with
    | none => exact List.getLast?_eq_none_iff.mp hlast
    | some c =>
      exfalso
      rw [process_time_eq_of_getLast hlast] at h
      split_ifs at h <;> split at h <;>
        simp_all [td_minutes, td_hours, td_days, timedelta_make] <;>
        split at h <;> simp_all
  · rintro rfl
    rfl

/-- Claim C5: every malformed duration string is rejected with the
malformed-input error (Python `ValueError` from `int()`, the spec's
`InvalidDurationFormat`) rather than silently defaulting: with a trailing
unit character 'm'/'h'/'d' but a non-integer magnitude before it, or with
any other trailing character and a non-integer whole string (e.g. "30x"). -/
theorem c5_malformed_rejected (cs : List Char) (c : Char)
    (hlast : cs.getLast? = some c) :
    (c ∈ ['m', 'h', 'd'] → pyInt cs.dropLast = none →
      process_time cs = .error Err.valueError) ∧
    (c ∉ ['m', 'h', 'd'] → pyInt cs = none →
      process_time cs = .error Err.valueError) := by
  constructor
  · intro hmem hnone
    rw [process_time_eq_of_getLast hlast]
    simp only [List.mem_cons, List.not_mem_nil, or_false] at hmem
    rcases hmem with rfl | rfl | rfl
    · rw [if_pos rfl, hnone]
    · rw [if_neg (by decide), if_pos rfl, hnone]
    · rw [if_neg (by decide), if_neg (by decide), if_pos rfl, hnone]
  · intro hmem hnone
    rw [process_time_eq_of_getLast hlast]
    simp only [List.mem_cons, List.not_mem_nil, or_false, not_or] at hmem
    rw [if_neg hmem.1, if_neg hmem.2.1, if_neg hmem.2.2, hnone]

/-- Claim C7 fails as stated: the string "-5" is accepted by the parser and
yields the negative duration of minus five hours. -/
theorem c7_counterexample :
    process_time ['-', '5'] = .ok (-18000) ∧ (-18000 : Int) < 0 :=
  ⟨rfl, by decide⟩

/-- Claim C7 amended: every duration string accepted by the parser in which
the character '-' does not occur yields a non-negative duration value (the
parser also accepts strings containing a minus sign, such as "-5" or
" -5" with `int()`'s whitespace stripping, and those yield negative
durations). -/
theorem c7_amended_nonneg (cs : List Char) (d : Int)
    (hminus : '-' ∉ cs) (h : process_time cs = .ok d) : 0 ≤ d := by
  have hdl : '-' ∉ cs.dropLast := fun hx =>
    hminus ((List.dropLast_sublist cs).subset hx)
  cases hlast : cs.getLast? with
  | none =>
    rw [process_time] at h
    rw [hlast] at h
    exact absurd h (by simp)
  | some c =>
    rw [process_time_eq_of_getLast hlast] at h
    split_ifs at h
    · cases hpy : pyInt cs.dropLast with
      | none => rw [hpy] at h; exact absurd h (by simp)
      | some n =>
        rw [hpy] at h
        simp only [td_minutes, timedelta_make] at h
        split at h
        · simp only [Except.ok.injEq] at h
          have hn := pyInt_nonneg hdl hpy
          omega
        · exact absurd h (by simp)
    · cases hpy : pyInt cs.dropLast with
      | none => rw [hpy] at h; exact absurd h (by simp)
      | some n =>
        rw [hpy] at h
        simp only [td_hours, timedelta_make] at h
        split at h
        · simp only [Except.ok.injEq] at h
          have hn := pyInt_nonneg hdl hpy
          omega
        · exact absurd h (by simp)
    · cases hpy : pyInt cs.dropLast with
      | none => rw [hpy] at h; exact absurd h (by simp)
      | some n =>
        rw [hpy] at h
        simp only [td_days, timedelta_make] at h
        split at h
        · simp only [Except.ok.injEq] at h
          have hn := pyInt_nonneg hdl hpy
          omega
        · exact absurd h (by simp)
    · cases hpy : pyInt cs with
      | none => rw [hpy] at h; exact absurd h (by simp)
      | some n =>
        rw [hpy] at h
        simp only [td_hours, timedelta_make] at h
        split at h
        · simp only [Except.ok.injEq] at h
          have hn := pyInt_nonneg hminus hpy
          omega
        · exact absurd h (by simp)

/-- Claim C2 fails as stated: "9999999999d" is an integer magnitude with
unit 'd', but parsing does not return 9999999999 days — that day count
exceeds `timedelta`'s ±999999999 bound, so the constructor raises
`OverflowError` instead. -/
theorem c2_counterexample :
    process_time
        ['9', '9', '9', '9', '9', '9', '9', '9', '9', '9', 'd'] =
      .error Err.overflowError ∧
    process_time
        ['9', '9', '9', '9', '9', '9', '9', '9', '9', '9', 'd'] ≠
      .ok (9999999999 * 86400) := by
  refine ⟨rfl, ?_⟩
  intro h
  rw [show process_time
      ['9', '9', '9', '9', '9', '9', '9', '9', '9', '9', 'd'] =
    Except.error Err.overflowError from rfl] at h
  exact Except.noConfusion h

/-- Claim C2 amended: for a string made of an integer magnitude and a single
trailing unit character the parser returns exactly that many minutes ('m'),
hours ('h') or days ('d'), and for the bare magnitude exactly that many
hours, with no rounding, whenever the resulting duration is within
`timedelta`'s representable range (day count within ±999999999); when the
duration falls outside that range the parser instead fails with
`OverflowError`. -/
theorem c2_units_exact (cs : List Char) (n : Int) (h : pyInt cs = some n) :
    (timedelta_ok (n * 60) = true →
      process_time (cs ++ ['m']) = .ok (n * 60)) ∧
    (timedelta_ok (n * 3600) = true →
      process_time (cs ++ ['h']) = .ok (n * 3600)) ∧
    (timedelta_ok (n * 86400) = true →
      process_time (cs ++ ['d']) = .ok (n * 86400)) ∧
    (timedelta_ok (n * 3600) = true →
      process_time cs = .ok (n * 3600)) ∧
    (timedelta_ok (n * 60) = false →
      process_time (cs ++ ['m']) = .error Err.overflowError) ∧
    (timedelta_ok (n * 3600) = false →
      process_time (cs ++ ['h']) = .error Err.overflowError) ∧
    (timedelta_ok (n * 86400) = false →
      process_time (cs ++ ['d']) = .error Err.overflowError) ∧
    (timedelta_ok (n * 3600) = false →
      process_time cs = .error Err.overflowError) := by
  obtain ⟨c0, hlast0, hdw⟩ := pyInt_some_getLast h
  obtain ⟨hu1, hu2, hu3⟩ := digit_or_ws_ne_unit hdw
  refine ⟨?_, ?_, ?_, ?_, ?_, ?_, ?_, ?_⟩
  · intro hok
    rw [process_time_eq_of_getLast (List.getLast?_concat cs), if_pos rfl,
      List.dropLast_concat, h]
    exact timedelta_make_pos hok
  · intro hok
    rw [process_time_eq_of_getLast (List.getLast?_concat cs),
      if_neg (by decide), if_pos rfl, List.dropLast_concat, h]
    exact timedelta_make_pos hok
  · intro hok
    rw [process_time_eq_of_getLast (List.getLast?_concat cs),
      if_neg (by decide), if_neg (by decide), if_pos rfl,
      List.dropLast_concat, h]
    exact timedelta_make_pos hok
  · intro hok
    rw [process_time_eq_of_getLast hlast0, if_neg hu1, if_neg hu2,
      if_neg hu3, h]
    exact timedelta_make_pos hok
  · intro hbad
    rw [process_time_eq_of_getLast (List.getLast?_concat cs), if_pos rfl,
      List.dropLast_concat, h]
    exact timedelta_make_neg hbad
  · intro hbad
    rw [process_time_eq_of_getLast (List.getLast?_concat cs),
      if_neg (by decide), if_pos rfl, List.dropLast_concat, h]
    exact timedelta_make_neg hbad
  · intro hbad
    rw [process_time_eq_of_getLast (List.getLast?_concat cs),
      if_neg (by decide), if_neg (by decide), if_pos rfl,
      List.dropLast_concat, h]
    exact timedelta_make_neg hbad
  · intro hbad
    rw [process_time_eq_of_getLast hlast0, if_neg hu1, if_neg hu2,
      if_neg hu3, h]
    exact timedelta_make_neg hbad

theorem c2_witness :
    process_time ['4', '5', 'm'] = .ok (45 * 60) ∧
    process_time ['4', '5', 'h'] = .ok (45 * 3600) ∧
    process_time ['4', '5', 'd'] = .ok (45 * 86400) ∧
    process_time ['4', '5'] = .ok (45 * 3600) ∧
    process_time ['9', '9', '9', '9', '9', '9', '9', '9', '9', '9', 'd'] =
      .error Err.overflowError :=
  ⟨(c2_units_exact ['4', '5'] 45 (by decide)).1 (by decide),
    (c2_units_exact ['4', '5'] 45 (by decide)).2.1 (by decide),
    (c2_units_exact ['4', '5'] 45 (by decide)).2.2.1 (by decide),
    (c2_units_exact ['4', '5'] 45 (by decide)).2.2.2.1 (by decide),
    (c2_units_exact ['9', '9', '9', '9', '9', '9', '9', '9', '9', '9']
        9999999999 (by decide)).2.2.2.2.2.2.1 (by decide)⟩

theorem c5_witness : process_time ['3', '0', 'x'] = .error Err.valueError :=
  (c5_malformed_rejected ['3', '0', 'x'] 'x' (by decide)).2 (by decide)
    (by decide)

theorem c7_amended_witness :
    process_time ['5'] = .ok 18000 ∧ (0 : Int) ≤ 18000 :=
  ⟨rfl, c7_amended_nonneg ['5'] 18000 (by decide) rfl⟩

theorem process_key_eq_of_parse {env : Env} {k : S3Object} {lm : Int}
    (hparse : env.parse_iso k.last_modified = .ok lm)
    (dry_run : Bool) (time_old : Int) (tick : Nat) :
    process_key env dry_run time_old tick k =
      (if time_old < env.clock tick - lm then
        if dry_run then
          ([Event.logKey k.name (env.clock tick - lm)], tick + 1, none)
        else
          ([Event.logKey k.name (env.clock tick - lm), Event.delete k.name],
            tick + 1, errOf (env.delete_result k))
      else ([], tick + 1, none)) := by
  unfold process_key
  rw [hparse]

theorem process_key_eq_of_parse_err {env : Env} {k : S3Object} {e : Err}
    (hparse : env.parse_iso k.last_modified = .error e)
    (dry_run : Bool) (time_old : Int) (tick : Nat) :
    process_key env dry_run time_old tick k = ([], tick, some e) := by
  unfold process_key
  rw [hparse]

theorem keys_loop_cons_err {env : Env} {dry told tick k ks evs tick1 e}
    (h : process_key env dry told tick k = (evs, tick1, some e)) :
    keys_loop env dry told tick (k :: ks) = (evs, tick1, some e) := by
  unfold keys_loop
  rw [h]

theorem keys_loop_cons_ok {env : Env} {dry told tick k ks evs tick1}
    (h : process_key env dry told tick k = (evs, tick1, none)) :
    keys_loop env dry told tick (k :: ks) =
      (evs ++ (keys_loop env dry told tick1 ks).1,
        (keys_loop env dry told tick1 ks).2.1,
        (keys_loop env dry told tick1 ks).2.2) := by
  rcases hk : keys_loop env dry told tick1 ks with ⟨a, b, c⟩
  simp only [keys_loop, h, hk]

theorem paths_loop_cons_listerr {env : Env} {dry told tick p ps e}
    (h : env.list_keys (env.parse_s3_uri p).1 (env.parse_s3_uri p).2 =
      .error e) :
    paths_loop env dry told tick (p :: ps) = ([], tick, some e) := by
  unfold paths_loop
  rw [h]

theorem paths_loop_cons_keyserr {env : Env} {dry told tick p ps keys evs
    tick1 e}
    (hks : env.list_keys (env.parse_s3_uri p).1 (env.parse_s3_uri p).2 =
      .ok keys)
    (h : keys_loop env dry told tick keys = (evs, tick1, some e)) :
    paths_loop env dry told tick (p :: ps) = (evs, tick1, some e) := by
  simp only [paths_loop, hks, h]

theorem paths_loop_cons_ok {env : Env} {dry told tick p ps keys evs tick1}
    (hks : env.list_keys (env.parse_s3_uri p).1 (env.parse_s3_uri p).2 =
      .ok keys)
    (h : keys_loop env dry told tick keys = (evs, tick1, none)) :
    paths_loop env dry told tick (p :: ps) =
      (evs ++ (paths_loop env dry told tick1 ps).1,
        (paths_loop env dry told tick1 ps).2.1,
        (paths_loop env dry told tick1 ps).2.2) := by
  rcases hk : paths_loop env dry told tick1 ps with ⟨a, b, c⟩
  simp only [paths_loop, hks, h, hk]

theorem s3_cleanup_ls_err {env : Env} {glob told dry tick e}
    (h : env.ls glob = .error e) :
    s3_cleanup env glob told dry tick =
      ([Event.logStart glob told], tick, some e) := by
  unfold s3_cleanup
  rw [h]

theorem s3_cleanup_ls_ok {env : Env} {glob told dry tick paths}
    (h : env.ls glob = .ok paths) :
    s3_cleanup env glob told dry tick =
      (Event.logStart glob told :: (paths_loop env dry told tick paths).1,
        (paths_loop env dry told tick paths).2.1,
        (paths_loop env dry told tick paths).2.2) := by
  unfold s3_cleanup
  rw [h]

theorem getattr_text_none (o : Options) :
    o.getattr ['t', 'e', 'x', 't'] = none := by
  unfold Options.getattr
  rw [if_neg (by decide), if_neg (by decide), if_neg (by decide)]

theorem main_loop_cons_attr_err {env : Env} {opts told tick p ps}
    (h : opts.getattr ['t', 'e', 'x', 't'] = none) :
    main_loop env opts told tick (p :: ps) =
      ([], tick, some Err.attributeError) := by
  unfold main_loop
  rw [h]

theorem main_loop_cons_cleanup_err {env : Env} {opts told tick p ps dry evs
    tick1 e}
    (hga : opts.getattr ['t', 'e', 'x', 't'] = some dry)
    (h : s3_cleanup env p told dry tick = (evs, tick1, some e)) :
    main_loop env opts told tick (p :: ps) = (evs, tick1, some e) := by
  simp only [main_loop, hga, h]

theorem main_loop_cons_ok {env : Env} {opts told tick p ps dry evs tick1}
    (hga : opts.getattr ['t', 'e', 'x', 't'] = some dry)
    (h : s3_cleanup env p told dry tick = (evs, tick1, none)) :
    main_loop env opts told tick (p :: ps) =
      (evs ++ (main_loop env opts told tick1 ps).1,
        (main_loop env opts told tick1 ps).2.1,
        (main_loop env opts told tick1 ps).2.2) := by
  rcases hk : main_loop env opts told tick1 ps with ⟨a, b, c⟩
  simp only [main_loop, hga, h, hk]

/-- Claim C1: for an enumerated object whose last-modified instant parses,
the non-dry cleanup body invokes the storage delete operation on the object
if and only if the `utcnow()` sample taken for it minus its last-modified
instant is strictly greater than the threshold; at exact equality the object
is retained, with no delete and no log line. -/
theorem c1_delete_iff_strictly_older (env : Env) (time_old : Int) (tick : Nat)
    (k : S3Object) (lm : Int)
    (hparse : env.parse_iso k.last_modified = .ok lm) :
    (Event.delete k.name ∈ (process_key env false time_old tick k).1 ↔
      time_old < env.clock tick - lm) ∧
    (env.clock tick - lm = time_old →
      (process_key env false time_old tick k).1 = []) := by
  rw [process_key_eq_of_parse hparse]
  constructor
  · by_cases hlt : time_old < env.clock tick - lm
    · rw [if_pos hlt]
      simp [hlt]
    · rw [if_neg hlt]
      simp [hlt]
  · intro heq
    rw [if_neg (by omega)]

theorem c1_witness :
    Event.delete ['k'] ∈ (process_key envOld false 50 0 kw).1 ∧
    (process_key envOld false 100 0 kw).1 = [] :=
  ⟨(c1_delete_iff_strictly_older envOld 50 0 kw 0 rfl).1.mpr (by decide),
    (c1_delete_iff_strictly_older envOld 100 0 kw 0 rfl).2 (by decide)⟩

theorem process_key_dry_no_delete (env : Env) (told : Int) (tick : Nat)
    (k : S3Object) :
    ∀ ev ∈ (process_key env true told tick k).1, ∀ nm,
      ev ≠ Event.delete nm := by
  cases hp : env.parse_iso k.last_modified with
  | error e =>
    rw [process_key_eq_of_parse_err hp]
    simp
  | ok lm =>
    rw [process_key_eq_of_parse hp]
    by_cases hlt : told < env.clock tick - lm
    · rw [if_pos hlt]
      simp
    · rw [if_neg hlt]
      simp

theorem keys_loop_dry_no_delete (env : Env) (told : Int) :
    ∀ (ks : List S3Object) (tick : Nat),
      ∀ ev ∈ (keys_loop env true told tick ks).1, ∀ nm,
        ev ≠ Event.delete nm := by
  intro ks
  induction ks with
  | nil =>
    intro tick ev hev
    simp [keys_loop] at hev
  | cons k t ih =>
    intro tick ev hev nm
    rcases hpk : process_key env true told tick k with ⟨evs, tick1, r⟩
    cases r with
    | some e =>
      rw [keys_loop_cons_err hpk] at hev
      exact process_key_dry_no_delete env told tick k ev
        (by rw [hpk]; exact hev) nm
    | none =>
      rw [keys_loop_cons_ok hpk] at hev
      rcases List.mem_append.mp hev with h1 | h2
      · exact process_key_dry_no_delete env told tick k ev
          (by rw [hpk]; exact h1) nm
      · exact ih tick1 ev h2 nm

theorem paths_loop_dry_no_delete (env : Env) (told : Int) :
    ∀ (ps : List (List Char)) (tick : Nat),
      ∀ ev ∈ (paths_loop env true told tick ps).1, ∀ nm,
        ev ≠ Event.delete nm := by
  intro ps
  induction ps with
  | nil =>
    intro tick ev hev
    simp [paths_loop] at hev
  | cons p t ih =>
    intro tick ev hev nm
    cases hks : env.list_keys (env.parse_s3_uri p).1 (env.parse_s3_uri p).2
      with
    | error e =>
      rw [paths_loop_cons_listerr hks] at hev
      simp at hev
    | ok keys =>
      rcases hkl : keys_loop env true told tick keys with ⟨evs, tick1, r⟩
      cases r with
      | some e =>
        rw [paths_loop_cons_keyserr hks hkl] at hev
        exact keys_loop_dry_no_delete env told keys tick ev
          (by rw [hkl]; exact hev) nm
      | none =>
        rw [paths_loop_cons_ok hks hkl] at hev
        rcases List.mem_append.mp hev with h1 | h2
        · exact keys_loop_dry_no_delete env told keys tick ev
            (by rw [hkl]; exact h1) nm
        · exact ih tick1 ev h2 nm

/-- Claim C3: in a dry run the storage delete operation is never invoked —
no delete effect appears anywhere in the run's trace, so the stored objects
are left unchanged — while the informational log line for an object whose
age strictly exceeds the threshold is still emitted. -/
theorem c3_dry_run_logs_without_deleting (env : Env) (glob : List Char)
    (time_old : Int) (tick : Nat) :
    (∀ ev ∈ (s3_cleanup env glob time_old true tick).1, ∀ nm,
      ev ≠ Event.delete nm) ∧
    (∀ (k : S3Object) (lm : Int) (i : Nat),
      env.parse_iso k.last_modified = .ok lm →
      time_old < env.clock i - lm →
      Event.logKey k.name (env.clock i - lm) ∈
        (process_key env true time_old i k).1) := by
  constructor
  · intro ev hev nm
    cases hls : env.ls glob with
    | error e =>
      rw [s3_cleanup_ls_err hls] at hev
      simp at hev
      rw [hev]
      simp
    | ok paths =>
      rw [s3_cleanup_ls_ok hls] at hev
      rcases List.mem_cons.mp hev with h1 | h2
      · rw [h1]
        simp
      · exact paths_loop_dry_no_delete env time_old paths tick ev h2 nm
  · intro k lm i hp hlt
    rw [process_key_eq_of_parse hp, if_pos hlt]
    simp

theorem c3_witness :
    Event.logStart ['u'] 50 ≠ Event.delete ['k'] ∧
    Event.logKey ['k'] (100 - 0) ∈ (process_key envOld true 50 0 kw).1 :=
  ⟨(c3_dry_run_logs_without_deleting envOld ['u'] 50 0).1
      (Event.logStart ['u'] 50) (by decide) ['k'],
    (c3_dry_run_logs_without_deleting envOld ['u'] 50 0).2 kw 0 0 rfl
      (by decide)⟩

/-- Claim C8: the UTC "now" is sampled freshly once per enumerated object,
not once per run: over a listing whose timestamps all parse and whose
deletions all succeed, the inner loop started at clock-sample index `tick`
consumes exactly one sample per object (finishing at `tick + keys.length`),
and the object at position `i` is handled with age
`clock (tick + i) - last_modified`, as `key_events` at sample index
`tick + i` states. -/
theorem c8_clock_sampled_per_object (env : Env) (dry : Bool) (told : Int)
    (keys : List S3Object) :
    ∀ tick : Nat,
      (∀ k ∈ keys, ∃ lm, env.parse_iso k.last_modified = .ok lm) →
      (∀ k ∈ keys, env.delete_result k = .ok ()) →
      keys_loop env dry told tick keys =
        ((List.enumFrom tick keys).flatMap
            (fun ik => key_events env dry told ik.1 ik.2),
          tick + keys.length, none) := by
  induction keys with
  | nil =>
    intro tick _ _
    simp [keys_loop, List.enumFrom]
  | cons k ks ih =>
    intro tick hparse hdel
    obtain ⟨lm, hlm⟩ := hparse k (by simp)
    have hpk : process_key env dry told tick k =
        (key_events env dry told tick k, tick + 1, none) := by
      by_cases hlt : told < env.clock tick - lm
      · cases dry with
        | true =>
          simp [process_key_eq_of_parse hlm, key_events, hlm, hlt]
        | false =>
          simp [process_key_eq_of_parse hlm, key_events, hlm, hlt, errOf,
            hdel k (by simp)]
      · simp [process_key_eq_of_parse hlm, key_events, hlm, hlt]
    rw [keys_loop_cons_ok hpk]
    rw [ih (tick + 1) (fun x hx => hparse x (by simp [hx]))
      (fun x hx => hdel x (by simp [hx]))]
    simp [List.enumFrom, List.flatMap_cons]
    omega

theorem c8_witness :
    keys_loop envInc false 50 0 [kw, kw2] =
      ([Event.logKey ['k'] 100, Event.delete ['k'],
        Event.logKey ['k', '2'] 101, Event.delete ['k', '2']], 2, none) := by
  rw [c8_clock_sampled_per_object envInc false 50 [kw, kw2] 0
    (by intro x hx; exact ⟨0, rfl⟩) (by intro x hx; rfl)]
  decide

/-- Claim C6: every error raised during a run propagates uncaught and stops
the run at once — nothing is caught or retried: a listing failure of
`runner.fs.ls` aborts `s3_cleanup` with that error; an error in one key's
processing (timestamp parse or deletion) aborts the inner loop with exactly
that error and the later keys are never examined; a `bucket.list` failure or
an inner-loop error aborts the outer loop with that error and the later
paths are never examined; an error below `s3_cleanup` is its result; and if
the first path spec's iteration in `main`'s loop ends in an error, the run
over any longer spec list is identical — subsequent path specs are never
processed. -/
theorem c6_errors_abort_run (env : Env) :
    (∀ glob told dry tick e, env.ls glob = .error e →
      s3_cleanup env glob told dry tick =
        ([Event.logStart glob told], tick, some e)) ∧
    (∀ dry told tick k ks evs tick1 e,
      process_key env dry told tick k = (evs, tick1, some e) →
      keys_loop env dry told tick (k :: ks) = (evs, tick1, some e)) ∧
    (∀ dry told tick p ps e,
      env.list_keys (env.parse_s3_uri p).1 (env.parse_s3_uri p).2 =
        .error e →
      paths_loop env dry told tick (p :: ps) = ([], tick, some e)) ∧
    (∀ dry told tick p ps keys evs tick1 e,
      env.list_keys (env.parse_s3_uri p).1 (env.parse_s3_uri p).2 =
        .ok keys →
      keys_loop env dry told tick keys = (evs, tick1, some e) →
      paths_loop env dry told tick (p :: ps) = (evs, tick1, some e)) ∧
    (∀ glob told dry tick paths evs tick1 e, env.ls glob = .ok paths →
      paths_loop env dry told tick paths = (evs, tick1, some e) →
      s3_cleanup env glob told dry tick =
        (Event.logStart glob told :: evs, tick1, some e)) ∧
    (∀ opts told tick p ps,
      (main_loop env opts told tick [p]).2.2 ≠ none →
      main_loop env opts told tick (p :: ps) =
        main_loop env opts told tick [p]) := by
  refine ⟨?_, ?_, ?_, ?_, ?_, ?_⟩
  · intro glob told dry tick e h
    exact s3_cleanup_ls_err h
  · intro dry told tick k ks evs tick1 e h
    exact keys_loop_cons_err h
  · intro dry told tick p ps e h
    exact paths_loop_cons_listerr h
  · intro dry told tick p ps keys evs tick1 e hks h
    exact paths_loop_cons_keyserr hks h
  · intro glob told dry tick paths evs tick1 e hls h
    rw [s3_cleanup_ls_ok hls, h]
  · intro opts told tick p ps hne
    cases hga : opts.getattr ['t', 'e', 'x', 't'] with
    | none =>
      rw [main_loop_cons_attr_err hga, main_loop_cons_attr_err hga]
    | some dry =>
      rcases hc : s3_cleanup env p told dry tick with ⟨evs, tick1, r⟩
      cases r with
      | some e =>
        rw [main_loop_cons_cleanup_err hga hc,
          main_loop_cons_cleanup_err hga hc]
      | none =>
        exfalso
        apply hne
        rw [main_loop_cons_ok hga hc]
        simp [main_loop]

theorem c6_witness :
    s3_cleanup envLsErr ['u'] 5 false 0 =
      ([Event.logStart ['u'] 5], 0, some (Err.backend 7)) ∧
    keys_loop envParseErr false 5 0 [kw, kw2] =
      ([], 0, some (Err.backend 9)) ∧
    paths_loop envListErr false 5 0 [['u'], ['v']] =
      ([], 0, some (Err.backend 8)) ∧
    keys_loop envDelErr false 5 0 [kw, kw2] =
      ([Event.logKey ['k'] 100, Event.delete ['k']], 1,
        some (Err.backend 10)) :=
  ⟨(c6_errors_abort_run envLsErr).1 ['u'] 5 false 0 (Err.backend 7) rfl,
    (c6_errors_abort_run envParseErr).2.1 false 5 0 kw [kw2] [] 0
      (Err.backend 9) rfl,
    (c6_errors_abort_run envListErr).2.2.1 false 5 0 ['u'] [['v']]
      (Err.backend 8) rfl,
    (c6_errors_abort_run envDelErr).2.1 false 5 0 kw [kw2]
      [Event.logKey ['k'] 100, Event.delete ['k']] 1 (Err.backend 10)
      (by decide)⟩

/-- Claim C9: with fewer than two positional arguments `main` reports a
usage error and exits non-zero (`option_parser.error`), with no events
emitted, for every environment — so no storage interaction takes place —
and before the duration argument is parsed (the result is the usage error
even when that argument is malformed). -/
theorem c9_usage_error_before_work (env : Env) (opts : Options)
    (args : List (List Char)) (h : args.length < 2) :
    S3TmpWatch.main env opts args = ([], some Err.usageError) := by
  unfold S3TmpWatch.main
  rw [if_pos h]

theorem c9_witness :
    S3TmpWatch.main envTriv ⟨false, false, false⟩ [['3', '0', 'x']] =
      ([], some Err.usageError) :=
  c9_usage_error_before_work envTriv ⟨false, false, false⟩ [['3', '0', 'x']]
    (by decide)

/-- Claim C4 is contradicted by the code: `main` passes
`dry_run=options.text` (line 81), but the `-t` (`--test`) option's dest is
`test`, so the attribute read raises `AttributeError` on the first loop
iteration of every invocation that reaches the loop — the cleanup is never
performed, dry or otherwise, whatever `-t` set the stored `test` flag to. -/
theorem c4_options_text_attribute_error (env : Env) (opts : Options)
    (t p : List Char) (ps : List (List Char)) (told : Int)
    (h : process_time t = .ok told) :
    S3TmpWatch.main env opts (t :: p :: ps) =
      ([], some Err.attributeError) := by
  unfold S3TmpWatch.main
  rw [if_neg (by simp only [List.length_cons]; omega)]
  show (match process_time t with
    | .error e => ([], some e)
    | .ok time_old =>
      match main_loop env opts time_old 0 (p :: ps) with
      | (evs, _, r) => (evs, r)) = ([], some Err.attributeError)
  rw [h]
  show (match main_loop env opts told 0 (p :: ps) with
    | (evs, _, r) => (evs, r)) = ([], some Err.attributeError)
  rw [main_loop_cons_attr_err (getattr_text_none opts)]

theorem c4_witness :
    S3TmpWatch.main envOld ⟨true, false, false⟩ [['3', '0', 'd'], ['u']] =
      ([], some Err.attributeError) :=
  c4_options_text_attribute_error envOld ⟨true, false, false⟩ ['3', '0', 'd']
    ['u'] [] 2592000 rfl
